import Mathlib

/-!
Verification of the Inbox-to-Calendar Sync Pipeline of the `extension`
repository. Each definition below is a shallow embedding of a function of
the JavaScript source (file and function named in its doc comment);
machine numbers are modelled as `Nat`/`ℚ`, fallible code as `Except`,
and the effectful API calls as explicit outcome parameters.
-/

namespace Extension

/-! ## Constants (src/config/constants.js) -/

namespace Constants

/-- RETRY_CONFIG.MAX_RETRIES (constants.js line 124). -/
def MAX_RETRIES : Nat := 3

/-- RETRY_CONFIG.INITIAL_DELAY_MS (constants.js line 125). -/
def INITIAL_DELAY_MS : Nat := 1000

/-- RETRY_CONFIG.BACKOFF_MULTIPLIER (constants.js line 126). -/
def BACKOFF_MULTIPLIER : Nat := 2

/-- RETRY_CONFIG.MAX_DELAY_MS (constants.js line 127). -/
def MAX_DELAY_MS : Nat := 10000

/-- MAX_PROCESSED_EMAIL_IDS (constants.js line 146). -/
def MAX_PROCESSED_EMAIL_IDS : Nat := 1000

/-- AI_CONFIG.MIN_CONFIDENCE_THRESHOLD (constants.js line 150). -/
def MIN_CONFIDENCE_THRESHOLD : ℚ := 1 / 2

/-- Object.values(EVENT_TYPES) (constants.js lines 156-166), in declaration order. -/
def EVENT_TYPES_values : List String :=
  ["delivery", "pickup", "meeting", "appointment", "shipment",
   "flight", "hotel", "service", "other"]

/-- LOGISTICS_KEYWORDS (constants.js lines 49-86). -/
def LOGISTICS_KEYWORDS : List String :=
  ["delivery", "delivered", "delivering",
   "shipped", "shipment", "shipping",
   "package", "parcel",
   "tracking", "tracking number",
   "eta", "estimated arrival", "estimated delivery",
   "arriving", "arrives", "arrival",
   "pickup", "pick up", "pick-up",
   "collection", "collect",
   "return", "returning",
   "appointment", "scheduled", "schedule",
   "meeting", "conference",
   "reservation", "booking", "booked",
   "confirmed", "confirmation",
   "flight", "boarding", "departure",
   "check-in", "check in", "checkout", "check out",
   "hotel", "accommodation",
   "train", "bus", "taxi", "uber", "lyft",
   "service appointment",
   "installation",
   "maintenance",
   "repair",
   "order confirmed", "order confirmation",
   "order status",
   "out for delivery",
   "dispatched"]

/-- PRIORITY_DOMAINS (constants.js lines 90-102). -/
def PRIORITY_DOMAINS : List String :=
  ["amazon.com", "fedex.com", "ups.com", "usps.com", "dhl.com",
   "shopify.com", "booking.com", "airbnb.com", "expedia.com",
   "uber.com", "lyft.com"]

/-- IGNORE_DOMAINS (constants.js lines 105-113). -/
def IGNORE_DOMAINS : List String :=
  ["noreply@", "newsletter@", "marketing@", "unsubscribe@",
   "notifications@facebook.com", "notifications@twitter.com",
   "notifications@linkedin.com"]

end Constants

/-! ## String helpers (JavaScript String.prototype semantics) -/

/-- JavaScript `s.includes(pat)`: `pat` occurs as a contiguous substring of `s`. -/
def strContainsSub (s pat : String) : Bool :=
  s.data.tails.any (fun suf => pat.data.isPrefixOf suf)

/-- JavaScript `s.toLowerCase()`, character-wise case folding (stated over
the character list so that it evaluates by kernel reduction). -/
def jsToLower (s : String) : String :=
  String.mk (s.data.map Char.toLower)

/-- Case-insensitive substring containment (both sides case-folded). -/
def ciContains (s t : String) : Bool :=
  strContainsSub (jsToLower s) (jsToLower t)

/-! ## Backoff (src/background/calendar-client.js and mongo-sync.js) -/

namespace CalendarClient

/-- calculateBackoff (calendar-client.js lines 364-367):
`min(INITIAL_DELAY_MS * BACKOFF_MULTIPLIER ^ (attempt - 1), MAX_DELAY_MS)`. -/
def calculateBackoff (attempt : Nat) : Nat :=
  min (Constants.INITIAL_DELAY_MS * Constants.BACKOFF_MULTIPLIER ^ (attempt - 1))
    Constants.MAX_DELAY_MS

/-- The error classification of createCalendarEventWithRetry
(calendar-client.js lines 79-85): `err.message.includes('authentication')`
or `err.message.match(/error: 4\d\x7b2\x7d/)`. -/
def isNonRetryableCalendarError (msg : String) : Bool :=
  strContainsSub msg "authentication" ||
    msg.data.tails.any (fun suf =>
      "error: 4".data.isPrefixOf suf &&
        (match suf.drop 8 with
         | d1 :: d2 :: _ => d1.isDigit && d2.isDigit
         | _ => false))

/-- The retry loop of createCalendarEventWithRetry (calendar-client.js
lines 69-97), driven by `env attempt = outcome of the attempt`.
Returns (final outcome, number of the last attempt made, delays slept). -/
def calRetryAux (env : Nat → Except String String) :
    Nat → Nat → Except String String × Nat × List Nat
  | attempt, 0 =>
    (match env attempt with
     | Except.ok v => (Except.ok v, attempt, [])
     | Except.error e => (Except.error e, attempt, []))
  | attempt, r + 1 =>
    (match env attempt with
     | Except.ok v => (Except.ok v, attempt, [])
     | Except.error e =>
       if isNonRetryableCalendarError e then (Except.error e, attempt, [])
       else
         let rest := calRetryAux env (attempt + 1) r
         (rest.1, rest.2.1, calculateBackoff attempt :: rest.2.2))

/-- createCalendarEventWithRetry (calendar-client.js lines 69-97):
attempts run from 1 up to RETRY_CONFIG.MAX_RETRIES. -/
def createCalendarEventWithRetry (env : Nat → Except String String) :
    Except String String × Nat × List Nat :=
  calRetryAux env 1 (Constants.MAX_RETRIES - 1)

end CalendarClient

namespace MongoSync

/-- calculateBackoff (mongo-sync.js lines 426-429); textually identical to
the calendar client's copy. -/
def calculateBackoff (attempt : Nat) : Nat :=
  min (Constants.INITIAL_DELAY_MS * Constants.BACKOFF_MULTIPLIER ^ (attempt - 1))
    Constants.MAX_DELAY_MS

/-- The retry loop of syncEventWithRetry (mongo-sync.js lines 86-104):
every error is retried; there is no non-retryable classification. -/
def syncRetryAux (env : Nat → Except String String) :
    Nat → Nat → Except String String × Nat × List Nat
  | attempt, 0 =>
    (match env attempt with
     | Except.ok v => (Except.ok v, attempt, [])
     | Except.error e => (Except.error e, attempt, []))
  | attempt, r + 1 =>
    (match env attempt with
     | Except.ok v => (Except.ok v, attempt, [])
     | Except.error _e =>
       let rest := syncRetryAux env (attempt + 1) r
       (rest.1, rest.2.1, calculateBackoff attempt :: rest.2.2))

/-- syncEventWithRetry (mongo-sync.js lines 86-104). -/
def syncEventWithRetry (env : Nat → Except String String) :
    Except String String × Nat × List Nat :=
  syncRetryAux env 1 (Constants.MAX_RETRIES - 1)

end MongoSync

/-! ## Gmail client: Dedup Ledger and Keyword Pre-Filter
(src/background/gmail-client.js) -/

namespace GmailClient

/-- An email object as built by fetchEmailDetails (gmail-client.js lines
134-144); only the fields the Pre-Filter reads. `from` is a Lean keyword,
so the sender-address field is named `fromAddr`. -/
structure Email where
  id : String
  subject : String
  fromAddr : String
  body : String
  snippet : String
deriving DecidableEq

/-- JavaScript `new Set(ids)`: keeps the first occurrence of each element,
in insertion order (gmail-client.js line 295). -/
def setFromList (ids : List String) : List String :=
  ids.foldl (fun acc id => if id ∈ acc then acc else acc ++ [id]) []

/-- JavaScript `set.add(id)` on an insertion-ordered set: appends iff absent
(gmail-client.js line 310). -/
def setAdd (s : List String) (id : String) : List String :=
  if id ∈ s then s else s ++ [id]

/-- JavaScript `arr.slice(-m)` for `m ≥ 1`: the last `m` elements
(gmail-client.js line 314). -/
def sliceLast (l : List String) (m : Nat) : List String :=
  l.drop (l.length - m)

/-- markEmailAsProcessed (gmail-client.js lines 307-323) with the maximum
ledger size as a parameter: `Array.from(new Set(stored).add(id)).slice(-m)`. -/
def markEmailAsProcessedWith (m : Nat) (stored : List String) (emailId : String) :
    List String :=
  sliceLast (setAdd (setFromList stored) emailId) m

/-- markEmailAsProcessed (gmail-client.js lines 307-323), at the configured
maximum MAX_PROCESSED_EMAIL_IDS. -/
def markEmailAsProcessed : List String → String → List String :=
  markEmailAsProcessedWith Constants.MAX_PROCESSED_EMAIL_IDS

/-- isEmailProcessed (gmail-client.js lines 356-359):
`(new Set(stored)).has(emailId)`. -/
def isEmailProcessed (stored : List String) (emailId : String) : Bool :=
  decide (emailId ∈ setFromList stored)

/-- The search text of mightBeLogistics (gmail-client.js line 263):
`` `${subject} ${body} ${snippet}`.toLowerCase() ``. -/
def searchTextOf (e : Email) : String :=
  jsToLower (e.subject ++ " " ++ e.body ++ " " ++ e.snippet)

/-- mightBeLogistics (gmail-client.js lines 252-285). The priority-domain
check (lines 276-283) only logs and does not change the result. -/
def mightBeLogistics (e : Email) : Bool :=
  let fromLower := jsToLower e.fromAddr
  if Constants.IGNORE_DOMAINS.any (fun d => strContainsSub fromLower d) then
    false
  else
    Constants.LOGISTICS_KEYWORDS.any (fun k =>
      strContainsSub (searchTextOf e) (jsToLower k))

end GmailClient

/-! ## A model of JavaScript values, for the dynamically-typed AI result -/

/-- A JavaScript value as it can occur in a parsed JSON field: `undefined`
(missing field), `null`, a boolean, a number (modelled exactly as `ℚ`),
or a string. -/
inductive JVal where
  | vUndef : JVal
  | vNull : JVal
  | vBool : Bool → JVal
  | vNum : ℚ → JVal
  | vStr : String → JVal
deriving DecidableEq

/-- JavaScript truthiness: `undefined`, `null`, `false`, `0` and the empty
string are falsy. -/
def truthy : JVal → Bool
  | JVal.vUndef => false
  | JVal.vNull => false
  | JVal.vBool b => b
  | JVal.vNum q => decide (q ≠ 0)
  | JVal.vStr s => decide (s ≠ "")

/-- JavaScript `a || b`. -/
def jsOr (a b : JVal) : JVal :=
  if truthy a then a else b

/-- JavaScript numeric coercion used by `<`: `null` coerces to 0, booleans
to 0/1, `undefined` to NaN (compares false); non-numeric strings are
NaN as well. Numeric strings are folded to `none` too: in every reachable
use the operand has already been validated to be a number. -/
def jsToNumber : JVal → Option ℚ
  | JVal.vNull => some 0
  | JVal.vBool b => some (if b then 1 else 0)
  | JVal.vNum q => some q
  | JVal.vUndef => none
  | JVal.vStr _ => none

/-- JavaScript `v < q` for a rational right operand: false when the left
operand coerces to NaN. -/
def jsLt (v : JVal) (q : ℚ) : Bool :=
  match jsToNumber v with
  | some x => decide (x < q)
  | none => false

/-! ## AI parser (src/background/ai-parser.js, OpenAI version) -/

namespace AIParser

/-- The object shape the extractor works with: the eight fields named in
the system prompt's output schema (ai-parser.js lines 29-38), each a
dynamic JavaScript value (`vUndef` when the model omitted it). -/
structure RawResult where
  isLogisticsEvent : JVal
  title : JVal
  description : JVal
  startDateTime : JVal
  endDateTime : JVal
  location : JVal
  eventType : JVal
  confidence : JVal
deriving DecidableEq

/-- createEmptyResult (ai-parser.js lines 227-238): the canonical empty,
non-schedulable result. -/
def createEmptyResult : RawResult :=
  { isLogisticsEvent := JVal.vBool false
    title := JVal.vStr ""
    description := JVal.vStr ""
    startDateTime := JVal.vNull
    endDateTime := JVal.vNull
    location := JVal.vStr ""
    eventType := JVal.vStr "other"
    confidence := JVal.vNum 0 }

/-- validateAIResult (ai-parser.js lines 190-221). `none` models a parsed
value that is not an object (`!result || typeof result !== 'object'`). -/
def validateAIResult : Option RawResult → Bool
  | none => false
  | some r =>
    match r.isLogisticsEvent with
    | JVal.vBool b =>
      if b then
        (truthy r.title && (match r.title with | JVal.vStr _ => true | _ => false))
        && (match r.eventType with | JVal.vStr _ => true | _ => false)
        && (match r.confidence with
            | JVal.vNum c => decide (0 ≤ c) && decide (c ≤ 1)
            | _ => false)
        && truthy r.startDateTime
      else true
    | _ => false

/-- The outcome of `callOpenAI` (ai-parser.js lines 128-183): either some
thrown error (missing key aside, any network/HTTP/JSON/shape failure), or
the JSON value it parsed. -/
inductive CallOutcome where
  | err : CallOutcome
  | ok : Option RawResult → CallOutcome
deriving DecidableEq

/-- JavaScript falsiness of the stored API key (`if (!apiKey) throw`). -/
def jsFalsyKey : Option String → Bool
  | none => true
  | some s => decide (s = "")

/-- extractScheduleFromEmail (ai-parser.js lines 54-89), with the two
effectful inputs (the stored API key and the API call outcome) passed
explicitly. The whole body sits in one `try`; every failure path lands in
the `catch` and returns `createEmptyResult`. -/
def extractScheduleFromEmail (apiKey : Option String) (outcome : CallOutcome) :
    RawResult :=
  if jsFalsyKey apiKey then createEmptyResult
  else
    match outcome with
    | CallOutcome.err => createEmptyResult
    | CallOutcome.ok parsed =>
      match parsed with
      | none => createEmptyResult
      | some r =>
        if validateAIResult (some r) = false then createEmptyResult
        else if truthy r.isLogisticsEvent
                && jsLt r.confidence Constants.MIN_CONFIDENCE_THRESHOLD then
          { r with isLogisticsEvent := JVal.vBool false }
        else r

end AIParser

/-! ## Event schema (src/models/event-schema.js) -/

namespace EventSchema

/-- The email fields createEvent reads (event-schema.js lines 50-80). -/
structure EmailData where
  id : String
  subject : String
  fromAddr : String
  date : String
deriving DecidableEq

/-- The record built by createEvent (event-schema.js lines 50-80). `Date`
construction is abstracted to its argument value; fields the claims do not
reason about keep their dynamic `JVal` type. -/
structure EventData where
  userId : String
  emailId : String
  emailSubject : String
  emailFrom : String
  emailDate : String
  eventTitle : JVal
  eventDescription : JVal
  eventType : String
  startDateTime : Option JVal
  endDateTime : Option JVal
  location : JVal
  calendarEventId : Option String
  calendarSyncStatus : String
  processingStatus : String
  aiConfidence : JVal
deriving DecidableEq

/-- validateEventType (event-schema.js lines 116-127). A falsy input maps
to EVENT_TYPES.OTHER; a truthy string is case-folded and checked against
`Object.values(EVENT_TYPES)`; a truthy non-string would make
`eventType.toLowerCase()` throw a TypeError, modelled as `Except.error`. -/
def validateEventType (eventType : JVal) : Except String String :=
  if truthy eventType = false then Except.ok "other"
  else
    match eventType with
    | JVal.vStr s =>
      let normalized := jsToLower s
      Except.ok (if normalized ∈ Constants.EVENT_TYPES_values then normalized
                 else "other")
    | _ => Except.error "TypeError: eventType.toLowerCase is not a function"

/-- createEvent (event-schema.js lines 50-80). The `||` default chains are
embedded via `jsOr`; `emailData.subject || ''` and `emailData.from || ''`
are the identity on string-valued fields. A throw from validateEventType
propagates. -/
def createEvent (emailData : EmailData) (aiResult : AIParser.RawResult)
    (userId : String) : Except String EventData :=
  match validateEventType aiResult.eventType with
  | Except.error e => Except.error e
  | Except.ok et =>
    Except.ok
      { userId := userId
        emailId := emailData.id
        emailSubject := emailData.subject
        emailFrom := emailData.fromAddr
        emailDate := emailData.date
        eventTitle := jsOr aiResult.title
          (jsOr (JVal.vStr emailData.subject) (JVal.vStr "Untitled Event"))
        eventDescription := jsOr aiResult.description (JVal.vStr "")
        eventType := et
        startDateTime :=
          if truthy aiResult.startDateTime then some aiResult.startDateTime
          else none
        endDateTime :=
          if truthy aiResult.endDateTime then some aiResult.endDateTime
          else none
        location := jsOr aiResult.location (JVal.vStr "")
        calendarEventId := none
        calendarSyncStatus := "pending"
        processingStatus := "processed"
        aiConfidence := jsOr aiResult.confidence (JVal.vNum 0) }

end EventSchema

/-! ## MongoDB data operations (src/background/mongo-sync.js) -/

namespace MongoSync

/-- A stored document; the fields the sync client's queries and updates
touch. `oid` is the MongoDB `_id`. -/
structure MDoc where
  oid : Nat
  userId : String
  emailId : String
  calendarEventId : Option String
  calendarSyncStatus : Option String
deriving DecidableEq

/-- The event payload handed to syncEvent; the document fields its
`$set`/insert writes (via prepareForMongoDB) that the claims reason about. -/
structure EventDoc where
  userId : String
  emailId : String
deriving DecidableEq

/-- MongoDB `updateOne`: rewrites the first matching document only. -/
def updateFirst (db : List MDoc) (p : MDoc → Bool) (f : MDoc → MDoc) : List MDoc :=
  match db with
  | [] => []
  | d :: rest => if p d then f d :: rest else d :: updateFirst rest p f

/-- syncEvent (mongo-sync.js lines 39-79): the existence lookup is
`findOne({ emailId })` — with no userId filter — and the update targets the
found document by `_id`, overwriting its payload (including `userId`).
Returns the new database and the id of the touched document. -/
def syncEvent (eventData : EventDoc) (db : List MDoc) (freshId : Nat) :
    List MDoc × Nat :=
  match db.find? (fun d => decide (d.emailId = eventData.emailId)) with
  | some existing =>
    (updateFirst db (fun d => decide (d.oid = existing.oid))
       (fun d => { d with userId := eventData.userId,
                          emailId := eventData.emailId }),
     existing.oid)
  | none =>
    (db ++ [{ oid := freshId, userId := eventData.userId,
              emailId := eventData.emailId, calendarEventId := none,
              calendarSyncStatus := none }],
     freshId)

/-- updateEventSyncStatus (mongo-sync.js lines 113-137):
`updateOne({ emailId }, { $set: { calendarEventId, calendarSyncStatus, ... } })`
— the query carries no userId filter, so the first document with that
emailId is modified regardless of its owner. -/
def updateEventSyncStatus (emailId calendarEventId status : String)
    (db : List MDoc) : List MDoc :=
  updateFirst db (fun d => decide (d.emailId = emailId))
    (fun d => { d with calendarEventId := some calendarEventId,
                       calendarSyncStatus := some status })

/-- getEvents (mongo-sync.js lines 145-182): the caller-supplied query is
extended with `userId: user.id`; sorting and limiting do not change which
documents are visible, so the model returns the filtered list. -/
def getEvents (caller : String) (query : MDoc → Bool) (db : List MDoc) :
    List MDoc :=
  db.filter (fun d => query d && decide (d.userId = caller))

/-- getEventByEmailId (mongo-sync.js lines 189-207):
`findOne({ emailId, userId: user.id })`. -/
def getEventByEmailId (caller : String) (emailId : String) (db : List MDoc) :
    Option MDoc :=
  db.find? (fun d => decide (d.emailId = emailId) && decide (d.userId = caller))

/-- deleteEvent (mongo-sync.js lines 214-232):
`deleteOne({ emailId, userId: user.id })` — removes the first match. -/
def deleteEvent (caller : String) (emailId : String) (db : List MDoc) :
    List MDoc :=
  match db with
  | [] => []
  | d :: rest =>
    if decide (d.emailId = emailId) && decide (d.userId = caller) then rest
    else d :: deleteEvent caller emailId rest

end MongoSync

/-! ## Orchestrator (src/background/service-worker.js) -/

namespace ServiceWorker

/-- A candidate message as the per-message loop sees it. -/
structure EmailMsg where
  id : String
deriving DecidableEq

/-- Which of the three outbound steps were invoked for one candidate. -/
structure StepCalls where
  extractCalled : Bool
  calendarCalled : Bool
  mongoCalled : Bool
deriving DecidableEq

/-- Result of one candidate's processing: a normal return (with the
"event created" flag) or an exception propagating out of
processSingleEmail. -/
inductive StepResult where
  | ok : Bool → StepResult
  | thrown : StepResult
deriving DecidableEq

/-- The effectful outcomes one candidate's processing can see: the
extraction result (`error` modelling a throw inside that step), the
calendar client's outcome (the created event id or a throw), and the
MongoDB sync outcome. -/
structure EmailEnv where
  extractOut : Except Unit AIParser.RawResult
  calendarOut : Except Unit String
  mongoOut : Except Unit Unit

/-- processSingleEmail (service-worker.js lines 195-262): extract, guard on
`isLogisticsEvent` then on `startDateTime`, create the calendar event
(`if (!calendarEventId) throw`), then sync to MongoDB; the `catch` block
re-throws, so failures propagate to the caller. Returns the result and
which steps were invoked. -/
def processSingleEmail (env : EmailEnv) : StepResult × StepCalls :=
  match env.extractOut with
  | Except.error _ => (StepResult.thrown, ⟨true, false, false⟩)
  | Except.ok ai =>
    if truthy ai.isLogisticsEvent = false then (StepResult.ok false, ⟨true, false, false⟩)
    else if truthy ai.startDateTime = false then (StepResult.ok false, ⟨true, false, false⟩)
    else
      match env.calendarOut with
      | Except.error _ => (StepResult.thrown, ⟨true, true, false⟩)
      | Except.ok cid =>
        if cid = "" then (StepResult.thrown, ⟨true, true, false⟩)
        else
          match env.mongoOut with
          | Except.error _ => (StepResult.thrown, ⟨true, true, true⟩)
          | Except.ok _ => (StepResult.ok true, ⟨true, true, true⟩)

/-- The per-message loop of processNewEmails (service-worker.js lines
146-173): skip ids already in the ledger; otherwise run processSingleEmail
inside a try whose catch logs and continues, and mark the id as processed
on both the success path and the catch path. Returns the final ledger and,
per attempted candidate, the calls made for it. -/
def processLoop (env : String → EmailEnv) :
    List String → List EmailMsg → List String × List (String × StepCalls)
  | ledger, [] => (ledger, [])
  | ledger, e :: rest =>
    if GmailClient.isEmailProcessed ledger e.id then
      processLoop env ledger rest
    else
      let step := processSingleEmail (env e.id)
      let newLedger := GmailClient.markEmailAsProcessed ledger e.id
      let next := processLoop env newLedger rest
      (next.1, (e.id, step.2) :: next.2)

end ServiceWorker

/-! ## Helper lemmas about the Dedup Ledger -/

namespace GmailClient

theorem setFromList_go_mem (l : List String) :
    ∀ (acc : List String) (a : String),
      a ∈ l.foldl (fun acc id => if id ∈ acc then acc else acc ++ [id]) acc ↔
        a ∈ acc ∨ a ∈ l := by
  induction l with
  | nil => simp
  | cons x xs ih =>
    intro acc a
    by_cases hx : x ∈ acc
    · simp only [List.foldl_cons, if_pos hx, ih, List.mem_cons]
      constructor
      · rintro (h | h)
        · exact Or.inl h
        · exact Or.inr (Or.inr h)
      · rintro (h | h | h)
        · exact Or.inl h
        · exact Or.inl (h ▸ hx)
        · exact Or.inr h
    · simp only [List.foldl_cons, if_neg hx, ih, List.mem_append,
        List.mem_singleton, List.mem_cons]
      tauto

theorem mem_setFromList (l : List String) (a : String) :
    a ∈ setFromList l ↔ a ∈ l := by
  unfold setFromList
  rw [setFromList_go_mem]
  simp

theorem setFromList_go_eq_self (l : List String) :
    ∀ acc : List String, (acc ++ l).Nodup →
      l.foldl (fun acc id => if id ∈ acc then acc else acc ++ [id]) acc =
        acc ++ l := by
  induction l with
  | nil => simp
  | cons x xs ih =>
    intro acc hnd
    have hx : x ∉ acc := by
      intro hmem
      have := List.disjoint_of_nodup_append hnd
      exact this hmem (List.mem_cons_self x xs)
    have hrearrange : acc ++ x :: xs = (acc ++ [x]) ++ xs := by simp
    rw [List.foldl_cons, if_neg hx, ih (acc ++ [x]) (by rw [← hrearrange]; exact hnd),
      hrearrange]

theorem setFromList_eq_self (l : List String) (h : l.Nodup) :
    setFromList l = l := by
  unfold setFromList
  simpa using setFromList_go_eq_self l [] (by simpa using h)

theorem setAdd_of_not_mem (s : List String) (id : String) (h : id ∉ s) :
    setAdd s id = s ++ [id] := by
  simp [setAdd, h]

theorem sliceLast_of_le (l : List String) (m : Nat) (h : l.length ≤ m) :
    sliceLast l m = l := by
  simp [sliceLast, Nat.sub_eq_zero_of_le h]

/-- When the deduplicated ledger still has room, markEmailAsProcessed is a
plain append-if-absent. -/
theorem markWith_no_eviction (m : Nat) (stored : List String) (id : String)
    (hnd : stored.Nodup) (hlen : stored.length + 1 ≤ m) :
    markEmailAsProcessedWith m stored id = setAdd stored id := by
  unfold markEmailAsProcessedWith
  rw [setFromList_eq_self stored hnd]
  apply sliceLast_of_le
  by_cases hmem : id ∈ stored
  · simp [setAdd, hmem]; omega
  · simp [setAdd, hmem]; omega

theorem markWith_nodup (m : Nat) (stored : List String) (id : String)
    (hnd : stored.Nodup) (hlen : stored.length + 1 ≤ m) :
    (markEmailAsProcessedWith m stored id).Nodup := by
  rw [markWith_no_eviction m stored id hnd hlen]
  by_cases hmem : id ∈ stored
  · simpa [setAdd, hmem] using hnd
  · simp [setAdd, hmem, List.nodup_append, hnd]

theorem markWith_length (m : Nat) (stored : List String) (id : String)
    (hnd : stored.Nodup) (hlen : stored.length + 1 ≤ m) :
    (markEmailAsProcessedWith m stored id).length ≤ stored.length + 1 := by
  rw [markWith_no_eviction m stored id hnd hlen]
  by_cases hmem : id ∈ stored
  · simp [setAdd, hmem]
  · simp [setAdd, hmem]

theorem mem_markWith (m : Nat) (stored : List String) (id a : String)
    (hnd : stored.Nodup) (hlen : stored.length + 1 ≤ m) :
    a ∈ markEmailAsProcessedWith m stored id ↔ a ∈ stored ∨ a = id := by
  rw [markWith_no_eviction m stored id hnd hlen]
  by_cases hmem : id ∈ stored
  · simp only [setAdd, if_pos hmem]
    constructor
    · exact Or.inl
    · rintro (h | h)
      · exact h
      · exact h ▸ hmem
  · simp [setAdd, hmem]

/-- Folding distinct ids into an empty ledger always leaves exactly the
last `min m n` of them: FIFO eviction. -/
theorem insertFold_eq_drop (m : Nat) (hm : 0 < m) :
    ∀ ids : List String, ids.Nodup →
      ids.foldl (markEmailAsProcessedWith m) [] =
        ids.drop (ids.length - m) := by
  intro ids
  induction ids using List.reverseRecOn with
  | nil => intro _; simp
  | append_singleton p x ih =>
    intro hnd
    have hp : p.Nodup := hnd.sublist (by simp)
    have hx : x ∉ p := by
      have := List.disjoint_of_nodup_append hnd
      intro hmem
      exact this hmem (List.mem_singleton_self x)
    rw [List.foldl_append, List.foldl_cons, List.foldl_nil, ih hp]
    set L := p.drop (p.length - m) with hL
    have hLnd : L.Nodup := hp.sublist (List.drop_sublist _ _)
    have hLx : x ∉ L := fun hmem => hx ((List.drop_sublist _ _).mem hmem)
    have hLlen : L.length = p.length - (p.length - m) := by
      simp [hL, List.length_drop]
    unfold markEmailAsProcessedWith
    rw [setFromList_eq_self L hLnd, setAdd_of_not_mem L x hLx]
    unfold sliceLast
    by_cases hcase : p.length < m
    · have hz : p.length - m = 0 := by omega
      have h1 : (L ++ [x]).length ≤ m := by
        simp [hLlen]; omega
      have h2 : (p ++ [x]).length - m = 0 := by simp; omega
      rw [Nat.sub_eq_zero_of_le h1, h2]
      simp [hL, hz]
    · push_neg at hcase
      have hLlen2 : L.length = m := by omega
      have harith : (L ++ [x]).length - m = 1 := by simp [hLlen2]
      have harith2 : (p ++ [x]).length - m = p.length - m + 1 := by
        simp; omega
      rw [harith, harith2,
        List.drop_append_of_le_length (by simp [hLlen2]; omega : 1 ≤ (L).length),
        List.drop_append_of_le_length (by omega : p.length - m + 1 ≤ p.length),
        hL, List.drop_drop]

end GmailClient

/-! ## Helper lemmas about the per-message loop -/

namespace ServiceWorker

theorem processLoop_cons_processed (env : String → EmailEnv)
    (ledger : List String) (e : EmailMsg) (rest : List EmailMsg)
    (h : GmailClient.isEmailProcessed ledger e.id = true) :
    processLoop env ledger (e :: rest) = processLoop env ledger rest := by
  simp [processLoop, h]

theorem processLoop_cons_new (env : String → EmailEnv)
    (ledger : List String) (e : EmailMsg) (rest : List EmailMsg)
    (h : GmailClient.isEmailProcessed ledger e.id = false) :
    processLoop env ledger (e :: rest)
      = ((processLoop env (GmailClient.markEmailAsProcessed ledger e.id) rest).1,
         (e.id, (processSingleEmail (env e.id)).2)
           :: (processLoop env (GmailClient.markEmailAsProcessed ledger e.id) rest).2) := by
  simp [processLoop, h]

/-- Which candidates get attempted, and the final ledger, do not depend on
the per-candidate outcomes (including throws): the loop marks and moves on
in both the success and the catch path. -/
theorem processLoop_env_indep (env1 env2 : String → EmailEnv) :
    ∀ (emails : List EmailMsg) (ledger : List String),
      (processLoop env1 ledger emails).1 = (processLoop env2 ledger emails).1
      ∧ (processLoop env1 ledger emails).2.map Prod.fst
        = (processLoop env2 ledger emails).2.map Prod.fst := by
  intro emails
  induction emails with
  | nil => intro ledger; exact ⟨rfl, rfl⟩
  | cons e rest ih =>
    intro ledger
    cases hc : GmailClient.isEmailProcessed ledger e.id with
    | true =>
      rw [processLoop_cons_processed env1 ledger e rest hc,
        processLoop_cons_processed env2 ledger e rest hc]
      exact ih ledger
    | false =>
      have h2 := ih (GmailClient.markEmailAsProcessed ledger e.id)
      rw [processLoop_cons_new env1 ledger e rest hc,
        processLoop_cons_new env2 ledger e rest hc]
      exact ⟨h2.1, by simpa using h2.2⟩

/-- Loop invariant: with a deduplicated starting ledger and enough room
(no eviction during the batch), the final ledger keeps every old id and
gains every batch id, stays deduplicated and bounded, and ids already in
the starting ledger are never attempted. -/
theorem processLoop_invariant (env : String → EmailEnv) :
    ∀ (emails : List EmailMsg) (ledger : List String),
      ledger.Nodup →
      ledger.length + emails.length ≤ Constants.MAX_PROCESSED_EMAIL_IDS →
      (∀ x ∈ ledger, x ∈ (processLoop env ledger emails).1)
      ∧ (processLoop env ledger emails).1.Nodup
      ∧ (processLoop env ledger emails).1.length ≤ ledger.length + emails.length
      ∧ (∀ e ∈ emails, e.id ∈ (processLoop env ledger emails).1)
      ∧ (∀ id c, id ∈ ledger → (id, c) ∉ (processLoop env ledger emails).2) := by
  intro emails
  induction emails with
  | nil =>
    intro ledger hnd _
    refine ⟨fun x hx => by simpa [processLoop] using hx,
      by simpa [processLoop] using hnd, by simp [processLoop],
      by simp, by simp [processLoop]⟩
  | cons e rest ih =>
    intro ledger hnd hlen
    cases hc : GmailClient.isEmailProcessed ledger e.id with
    | true =>
      have hmem : e.id ∈ ledger := by
        have := of_decide_eq_true hc
        exact (GmailClient.mem_setFromList ledger e.id).mp this
      have hrest := ih ledger hnd (by simp at hlen ⊢; omega)
      rw [processLoop_cons_processed env ledger e rest hc]
      refine ⟨hrest.1, hrest.2.1, ?_, ?_, hrest.2.2.2.2⟩
      · have := hrest.2.2.1; simp only [List.length_cons]; omega
      · intro a ha
        rcases List.mem_cons.mp ha with h | h
        · exact h ▸ hrest.1 e.id hmem
        · exact hrest.2.2.2.1 a h
    | false =>
      have hnotmem : e.id ∉ ledger := by
        intro hmem
        have : GmailClient.isEmailProcessed ledger e.id = true :=
          decide_eq_true ((GmailClient.mem_setFromList ledger e.id).mpr hmem)
        simp [this] at hc
      have hroom : ledger.length + 1 ≤ Constants.MAX_PROCESSED_EMAIL_IDS := by
        simp at hlen; omega
      have hmarkNd : (GmailClient.markEmailAsProcessed ledger e.id).Nodup :=
        GmailClient.markWith_nodup _ ledger e.id hnd hroom
      have hmarkLen :
          (GmailClient.markEmailAsProcessed ledger e.id).length ≤ ledger.length + 1 :=
        GmailClient.markWith_length _ ledger e.id hnd hroom
      have hmarkMem : ∀ a, a ∈ GmailClient.markEmailAsProcessed ledger e.id ↔
          a ∈ ledger ∨ a = e.id :=
        fun a => GmailClient.mem_markWith _ ledger e.id a hnd hroom
      have hrest := ih (GmailClient.markEmailAsProcessed ledger e.id) hmarkNd
        (by simp at hlen ⊢; omega)
      rw [processLoop_cons_new env ledger e rest hc]
      refine ⟨?_, hrest.2.1, ?_, ?_, ?_⟩
      · intro x hx
        exact hrest.1 x ((hmarkMem x).mpr (Or.inl hx))
      · have := hrest.2.2.1; simp only [List.length_cons]; omega
      · intro a ha
        rcases List.mem_cons.mp ha with h | h
        · rw [h]; exact hrest.1 e.id ((hmarkMem e.id).mpr (Or.inr rfl))
        · exact hrest.2.2.2.1 a h
      · intro id c hid hin
        rcases List.mem_cons.mp hin with h | h
        · have : id = e.id := congrArg Prod.fst h
          exact hnotmem (this ▸ hid)
        · exact hrest.2.2.2.2 id c ((hmarkMem id).mpr (Or.inl hid)) h

end ServiceWorker

/-! ## Helper lemmas about retry loops and configured word lists -/

theorem calRetryAux_attempt_le (env : Nat → Except String String) :
    ∀ (r attempt : Nat),
      (CalendarClient.calRetryAux env attempt r).2.1 ≤ attempt + r := by
  intro r
  induction r with
  | zero =>
    intro attempt
    unfold CalendarClient.calRetryAux
    cases env attempt <;> simp
  | succ n ih =>
    intro attempt
    unfold CalendarClient.calRetryAux
    cases env attempt with
    | ok v => simp
    | error e =>
      by_cases hne : CalendarClient.isNonRetryableCalendarError e
      · simp [hne]
      · have := ih (attempt + 1)
        simp only [hne, if_false, Bool.false_eq_true]
        simp
        omega

theorem syncRetryAux_attempt_le (env : Nat → Except String String) :
    ∀ (r attempt : Nat),
      (MongoSync.syncRetryAux env attempt r).2.1 ≤ attempt + r := by
  intro r
  induction r with
  | zero =>
    intro attempt
    unfold MongoSync.syncRetryAux
    cases env attempt <;> simp
  | succ n ih =>
    intro attempt
    unfold MongoSync.syncRetryAux
    cases env attempt with
    | ok v => simp
    | error e =>
      have := ih (attempt + 1)
      simp
      omega

theorem ignore_domains_lower :
    ∀ d ∈ Constants.IGNORE_DOMAINS, jsToLower d = d := by decide

theorem keywords_lower :
    ∀ k ∈ Constants.LOGISTICS_KEYWORDS, jsToLower k = k := by decide

/-! ## Claim theorems -/

/-- C7: with INITIAL_DELAY_MS = 1000, BACKOFF_MULTIPLIER = 2 and
MAX_DELAY_MS = 10000, the retry delay satisfies
`delay(attempt) = min(1000 * 2 ^ (attempt - 1), 10000)` for every
attempt ≥ 1, and on attempts 1..5 calculateBackoff yields exactly
1000, 2000, 4000, 8000, 10000 ms; the mongo-sync copy of the routine
computes the same function. -/
theorem backoff_delay_schedule :
    (∀ attempt : Nat, 1 ≤ attempt →
      CalendarClient.calculateBackoff attempt
        = min (1000 * 2 ^ (attempt - 1)) 10000)
    ∧ [1, 2, 3, 4, 5].map CalendarClient.calculateBackoff
        = [1000, 2000, 4000, 8000, 10000]
    ∧ MongoSync.calculateBackoff = CalendarClient.calculateBackoff := by
  refine ⟨fun attempt _ => rfl, by decide, rfl⟩

/-- Witness for C7 at attempt 5. -/
theorem backoff_delay_schedule_witness :
    1 ≤ 5 ∧ CalendarClient.calculateBackoff 5 = min (1000 * 2 ^ (5 - 1)) 10000 :=
  ⟨by decide, backoff_delay_schedule.1 5 (by decide)⟩

/-- C6: inserting N distinct ids one at a time via markEmailAsProcessed
into an empty ledger with maximum size m < N leaves exactly the m
most-recently-inserted ids, in insertion order (FIFO eviction of the
oldest); the size never exceeds m after any insertion; and the
production entry point is the m = MAX_PROCESSED_EMAIL_IDS instance. -/
theorem dedup_ledger_bounded_fifo :
    ∀ (m : Nat) (ids : List String), 0 < m → ids.Nodup →
      (m < ids.length →
        (ids.foldl (GmailClient.markEmailAsProcessedWith m) []).length = m
        ∧ ids.foldl (GmailClient.markEmailAsProcessedWith m) []
            = ids.drop (ids.length - m))
      ∧ (∀ k : Nat,
          ((ids.take k).foldl (GmailClient.markEmailAsProcessedWith m) []).length ≤ m)
      ∧ GmailClient.markEmailAsProcessed
          = GmailClient.markEmailAsProcessedWith Constants.MAX_PROCESSED_EMAIL_IDS := by
  intro m ids hm hnd
  have hmain := GmailClient.insertFold_eq_drop m hm ids hnd
  refine ⟨fun hlt => ⟨?_, hmain⟩, ?_, rfl⟩
  · rw [hmain, List.length_drop]; omega
  · intro k
    have hk : (ids.take k).Nodup := hnd.sublist (List.take_sublist k ids)
    rw [GmailClient.insertFold_eq_drop m hm _ hk, List.length_drop]
    omega

/-- Witness for C6: three distinct ids into a ledger of maximum size 2. -/
theorem dedup_ledger_bounded_fifo_witness :
    0 < 2 ∧ (["a", "b", "c"] : List String).Nodup
    ∧ ((["a", "b", "c"] : List String).foldl
        (GmailClient.markEmailAsProcessedWith 2) []).length = 2
    ∧ (["a", "b", "c"] : List String).foldl
        (GmailClient.markEmailAsProcessedWith 2) [] = ["b", "c"] := by
  have h := dedup_ledger_bounded_fifo 2 ["a", "b", "c"] (by decide) (by decide)
  have h2 := h.1 (by decide)
  exact ⟨by decide, by decide, h2.1, h2.2.trans (by decide)⟩

/-- C9: a candidate whose id is already in the Dedup Ledger at the start
of its per-message step is skipped before processSingleEmail runs (the
loop step is a no-op for it), and over a whole pipeline pass no
extraction, calendar or mongo call is recorded for an id that was in the
ledger when the pass started. -/
theorem dedup_skip_zero_calls :
    ∀ (env : String → ServiceWorker.EmailEnv) (ledger : List String),
      (∀ (e : ServiceWorker.EmailMsg) (rest : List ServiceWorker.EmailMsg),
        GmailClient.isEmailProcessed ledger e.id = true →
        ServiceWorker.processLoop env ledger (e :: rest)
          = ServiceWorker.processLoop env ledger rest)
      ∧ (∀ (emails : List ServiceWorker.EmailMsg) (id : String),
          ledger.Nodup →
          ledger.length + emails.length ≤ Constants.MAX_PROCESSED_EMAIL_IDS →
          id ∈ ledger →
          ∀ c, (id, c) ∉ (ServiceWorker.processLoop env ledger emails).2) := by
  intro env ledger
  refine ⟨fun e rest h =>
    ServiceWorker.processLoop_cons_processed env ledger e rest h, ?_⟩
  intro emails id hnd hlen hid c
  exact (ServiceWorker.processLoop_invariant env emails ledger hnd hlen).2.2.2.2
    id c hid

/-- Witness for C9: "m1" is already processed; a pass over ["m1", "m2"]
records no calls for "m1". -/
theorem dedup_skip_zero_calls_witness :
    GmailClient.isEmailProcessed ["m1"] "m1" = true
    ∧ (["m1"] : List String).Nodup
    ∧ (["m1"] : List String).length
        + ([⟨"m1"⟩, ⟨"m2"⟩] : List ServiceWorker.EmailMsg).length
        ≤ Constants.MAX_PROCESSED_EMAIL_IDS
    ∧ "m1" ∈ (["m1"] : List String)
    ∧ ∀ c, ("m1", c) ∉ (ServiceWorker.processLoop
        (fun _ => ⟨Except.ok AIParser.createEmptyResult, Except.ok "cal-1",
          Except.ok ()⟩)
        ["m1"] [⟨"m1"⟩, ⟨"m2"⟩]).2 := by
  refine ⟨by decide, by decide, by decide, by decide, fun c => ?_⟩
  exact (dedup_skip_zero_calls
    (fun _ => ⟨Except.ok AIParser.createEmptyResult, Except.ok "cal-1",
      Except.ok ()⟩) ["m1"]).2
    [⟨"m1"⟩, ⟨"m2"⟩] "m1" (by decide) (by decide) (by decide) c

/-- C5: an exception anywhere inside one candidate's processing does not
change which subsequent candidates of the batch are attempted or what the
final ledger is (the attempted-id trace and final ledger are identical
under any two outcome environments), and with room in the ledger every
batch candidate's id ends up recorded regardless of per-candidate
success or failure. -/
theorem batch_failure_isolation :
    ∀ (ledger : List String) (emails : List ServiceWorker.EmailMsg)
      (env1 env2 : String → ServiceWorker.EmailEnv),
      ((ServiceWorker.processLoop env1 ledger emails).2.map Prod.fst
         = (ServiceWorker.processLoop env2 ledger emails).2.map Prod.fst
       ∧ (ServiceWorker.processLoop env1 ledger emails).1
         = (ServiceWorker.processLoop env2 ledger emails).1)
      ∧ (ledger.Nodup →
         ledger.length + emails.length ≤ Constants.MAX_PROCESSED_EMAIL_IDS →
         ∀ e ∈ emails, e.id ∈ (ServiceWorker.processLoop env1 ledger emails).1) := by
  intro ledger emails env1 env2
  have h := ServiceWorker.processLoop_env_indep env1 env2 emails ledger
  refine ⟨⟨h.2, h.1⟩, fun hnd hlen => ?_⟩
  exact (ServiceWorker.processLoop_invariant env1 emails ledger hnd hlen).2.2.2.1

/-- Witness for C5: a batch of three candidates where candidate "m2"'s
extraction throws. Candidates "m1" and "m3" are still fully processed
(their calendar and mongo calls are attempted) and all three ids are
recorded. -/
theorem batch_failure_isolation_witness :
    ((ServiceWorker.processLoop
        (fun id => if id = "m2" then
            ⟨Except.error (), Except.ok "cal-1", Except.ok ()⟩
          else
            ⟨Except.ok
              { isLogisticsEvent := JVal.vBool true
                title := JVal.vStr "Package delivery"
                description := JVal.vStr ""
                startDateTime := JVal.vStr "2024-12-12T14:00:00.000Z"
                endDateTime := JVal.vNull
                location := JVal.vStr ""
                eventType := JVal.vStr "delivery"
                confidence := JVal.vNum 1 },
              Except.ok "cal-1", Except.ok ()⟩)
        [] [⟨"m1"⟩, ⟨"m2"⟩, ⟨"m3"⟩]).2.map Prod.fst
      = (ServiceWorker.processLoop
          (fun _ =>
            ⟨Except.ok
              { isLogisticsEvent := JVal.vBool true
                title := JVal.vStr "Package delivery"
                description := JVal.vStr ""
                startDateTime := JVal.vStr "2024-12-12T14:00:00.000Z"
                endDateTime := JVal.vNull
                location := JVal.vStr ""
                eventType := JVal.vStr "delivery"
                confidence := JVal.vNum 1 },
              Except.ok "cal-1", Except.ok ()⟩)
          [] [⟨"m1"⟩, ⟨"m2"⟩, ⟨"m3"⟩]).2.map Prod.fst)
    ∧ (∀ e ∈ ([⟨"m1"⟩, ⟨"m2"⟩, ⟨"m3"⟩] : List ServiceWorker.EmailMsg),
        e.id ∈ (ServiceWorker.processLoop
          (fun id => if id = "m2" then
              ⟨Except.error (), Except.ok "cal-1", Except.ok ()⟩
            else
              ⟨Except.ok
                { isLogisticsEvent := JVal.vBool true
                  title := JVal.vStr "Package delivery"
                  description := JVal.vStr ""
                  startDateTime := JVal.vStr "2024-12-12T14:00:00.000Z"
                  endDateTime := JVal.vNull
                  location := JVal.vStr ""
                  eventType := JVal.vStr "delivery"
                  confidence := JVal.vNum 1 },
                Except.ok "cal-1", Except.ok ()⟩)
          [] [⟨"m1"⟩, ⟨"m2"⟩, ⟨"m3"⟩]).1)
    ∧ (ServiceWorker.processLoop
        (fun id => if id = "m2" then
            ⟨Except.error (), Except.ok "cal-1", Except.ok ()⟩
          else
            ⟨Except.ok
              { isLogisticsEvent := JVal.vBool true
                title := JVal.vStr "Package delivery"
                description := JVal.vStr ""
                startDateTime := JVal.vStr "2024-12-12T14:00:00.000Z"
                endDateTime := JVal.vNull
                location := JVal.vStr ""
                eventType := JVal.vStr "delivery"
                confidence := JVal.vNum 1 },
              Except.ok "cal-1", Except.ok ()⟩)
        [] [⟨"m1"⟩, ⟨"m2"⟩, ⟨"m3"⟩]).2
      = [("m1", ⟨true, true, true⟩), ("m2", ⟨true, false, false⟩),
         ("m3", ⟨true, true, true⟩)] := by
  have h := batch_failure_isolation [] [⟨"m1"⟩, ⟨"m2"⟩, ⟨"m3"⟩]
    (fun id => if id = "m2" then
        ⟨Except.error (), Except.ok "cal-1", Except.ok ()⟩
      else
        ⟨Except.ok
          { isLogisticsEvent := JVal.vBool true
            title := JVal.vStr "Package delivery"
            description := JVal.vStr ""
            startDateTime := JVal.vStr "2024-12-12T14:00:00.000Z"
            endDateTime := JVal.vNull
            location := JVal.vStr ""
            eventType := JVal.vStr "delivery"
            confidence := JVal.vNum 1 },
          Except.ok "cal-1", Except.ok ()⟩)
    (fun _ =>
      ⟨Except.ok
        { isLogisticsEvent := JVal.vBool true
          title := JVal.vStr "Package delivery"
          description := JVal.vStr ""
          startDateTime := JVal.vStr "2024-12-12T14:00:00.000Z"
          endDateTime := JVal.vNull
          location := JVal.vStr ""
          eventType := JVal.vStr "delivery"
          confidence := JVal.vNum 1 },
        Except.ok "cal-1", Except.ok ()⟩)
  exact ⟨h.1.1, h.2 (by decide) (by decide), by decide⟩

/-- C3: extractScheduleFromEmail is total (the embedding is a function, so
no exception escapes), and every internal failure — missing/empty API key,
a thrown API call, a non-object parse, or a schema-invalid result, in
particular `isLogisticsEvent = true` with a missing `startDateTime` — is
mapped to the canonical empty result, which has `isLogisticsEvent = false`
and `confidence = 0`. -/
theorem extractor_maps_failures_to_empty :
    ∀ (apiKey : Option String) (outcome : AIParser.CallOutcome),
      ((AIParser.jsFalsyKey apiKey = true ∨ outcome = AIParser.CallOutcome.err
          ∨ ∃ parsed, outcome = AIParser.CallOutcome.ok parsed
              ∧ AIParser.validateAIResult parsed = false) →
        AIParser.extractScheduleFromEmail apiKey outcome
          = AIParser.createEmptyResult)
      ∧ (∀ r : AIParser.RawResult, r.isLogisticsEvent = JVal.vBool true →
          truthy r.startDateTime = false →
          AIParser.validateAIResult (some r) = false)
      ∧ AIParser.createEmptyResult.isLogisticsEvent = JVal.vBool false
      ∧ AIParser.createEmptyResult.confidence = JVal.vNum 0 := by
  intro apiKey outcome
  refine ⟨?_, ?_, rfl, rfl⟩
  · rintro (hkey | hout | ⟨parsed, hout, hval⟩)
    · simp [AIParser.extractScheduleFromEmail, hkey]
    · subst hout
      simp [AIParser.extractScheduleFromEmail]
    · subst hout
      cases parsed with
      | none => simp [AIParser.extractScheduleFromEmail]
      | some r => simp [AIParser.extractScheduleFromEmail, hval]
  · intro r h1 h2
    simp [AIParser.validateAIResult, h1, h2]

/-- Witness for C3: a result claiming a logistics event but lacking
`startDateTime` is schema-invalid and the extractor returns the canonical
empty result for it. -/
theorem extractor_maps_failures_to_empty_witness :
    AIParser.validateAIResult (some
      { isLogisticsEvent := JVal.vBool true
        title := JVal.vStr "Dentist"
        description := JVal.vStr ""
        startDateTime := JVal.vNull
        endDateTime := JVal.vNull
        location := JVal.vStr ""
        eventType := JVal.vStr "appointment"
        confidence := JVal.vNum 1 }) = false
    ∧ AIParser.extractScheduleFromEmail (some "sk-test")
        (AIParser.CallOutcome.ok (some
          { isLogisticsEvent := JVal.vBool true
            title := JVal.vStr "Dentist"
            description := JVal.vStr ""
            startDateTime := JVal.vNull
            endDateTime := JVal.vNull
            location := JVal.vStr ""
            eventType := JVal.vStr "appointment"
            confidence := JVal.vNum 1 }))
      = AIParser.createEmptyResult := by
  refine ⟨by decide, ?_⟩
  exact (extractor_maps_failures_to_empty (some "sk-test")
    (AIParser.CallOutcome.ok (some
      { isLogisticsEvent := JVal.vBool true
        title := JVal.vStr "Dentist"
        description := JVal.vStr ""
        startDateTime := JVal.vNull
        endDateTime := JVal.vNull
        location := JVal.vStr ""
        eventType := JVal.vStr "appointment"
        confidence := JVal.vNum 1 }))).1
    (Or.inr (Or.inr ⟨_, rfl, by decide⟩))

/-- C4: a validated result with `isLogisticsEvent = true` whose confidence
is strictly below MIN_CONFIDENCE_THRESHOLD = 1/2 leaves the extractor with
`isLogisticsEvent = false`, and the orchestrator consequently makes no
calendar (and no mongo) call for that candidate. -/
theorem confidence_gate_blocks_calendar :
    ∀ (apiKey : Option String) (r : AIParser.RawResult) (c : ℚ),
      AIParser.jsFalsyKey apiKey = false →
      AIParser.validateAIResult (some r) = true →
      r.isLogisticsEvent = JVal.vBool true →
      r.confidence = JVal.vNum c →
      c < Constants.MIN_CONFIDENCE_THRESHOLD →
      (AIParser.extractScheduleFromEmail apiKey
          (AIParser.CallOutcome.ok (some r))).isLogisticsEvent
        = JVal.vBool false
      ∧ ∀ env : ServiceWorker.EmailEnv,
          env.extractOut
            = Except.ok (AIParser.extractScheduleFromEmail apiKey
                (AIParser.CallOutcome.ok (some r))) →
          (ServiceWorker.processSingleEmail env).2.calendarCalled = false
          ∧ (ServiceWorker.processSingleEmail env).2.mongoCalled = false := by
  intro apiKey r c hkey hval hlog hconf hlt
  have hgate : AIParser.extractScheduleFromEmail apiKey
      (AIParser.CallOutcome.ok (some r))
      = { r with isLogisticsEvent := JVal.vBool false } := by
    simp [AIParser.extractScheduleFromEmail, hkey, hval, hlog, hconf,
      jsLt, jsToNumber, truthy, hlt]
  refine ⟨by rw [hgate], ?_⟩
  intro env henv
  have htr : truthy (AIParser.extractScheduleFromEmail apiKey
      (AIParser.CallOutcome.ok (some r))).isLogisticsEvent = false := by
    rw [hgate]; rfl
  constructor <;>
    simp [ServiceWorker.processSingleEmail, henv, htr]

/-- Witness for C4: a validated appointment with confidence 0 is gated
off and triggers no calendar or mongo call. -/
theorem confidence_gate_blocks_calendar_witness :
    (AIParser.extractScheduleFromEmail (some "sk-test")
        (AIParser.CallOutcome.ok (some
          { isLogisticsEvent := JVal.vBool true
            title := JVal.vStr "Dentist"
            description := JVal.vStr ""
            startDateTime := JVal.vStr "2024-12-12T14:00:00.000Z"
            endDateTime := JVal.vNull
            location := JVal.vStr ""
            eventType := JVal.vStr "appointment"
            confidence := JVal.vNum 0 }))).isLogisticsEvent
      = JVal.vBool false
    ∧ (ServiceWorker.processSingleEmail
        ⟨Except.ok (AIParser.extractScheduleFromEmail (some "sk-test")
          (AIParser.CallOutcome.ok (some
            { isLogisticsEvent := JVal.vBool true
              title := JVal.vStr "Dentist"
              description := JVal.vStr ""
              startDateTime := JVal.vStr "2024-12-12T14:00:00.000Z"
              endDateTime := JVal.vNull
              location := JVal.vStr ""
              eventType := JVal.vStr "appointment"
              confidence := JVal.vNum 0 }))),
          Except.ok "cal-1", Except.ok ()⟩).2.calendarCalled = false := by
  have h := confidence_gate_blocks_calendar (some "sk-test")
    { isLogisticsEvent := JVal.vBool true
      title := JVal.vStr "Dentist"
      description := JVal.vStr ""
      startDateTime := JVal.vStr "2024-12-12T14:00:00.000Z"
      endDateTime := JVal.vNull
      location := JVal.vStr ""
      eventType := JVal.vStr "appointment"
      confidence := JVal.vNum 0 }
    0 (by decide) (by decide) rfl rfl
    (by norm_num [Constants.MIN_CONFIDENCE_THRESHOLD])
  exact ⟨h.1, (h.2 _ rfl).1⟩

/-- C8: the Pre-Filter rejects every message whose sender address contains
a configured ignore-list entry as a case-insensitive substring (regardless
of the message text), and otherwise accepts a message exactly when the
case-folded subject/body/snippet text contains at least one configured
keyword as a substring. -/
theorem keyword_prefilter_correct :
    ∀ e : GmailClient.Email,
      ((∃ d ∈ Constants.IGNORE_DOMAINS, ciContains e.fromAddr d = true) →
        GmailClient.mightBeLogistics e = false)
      ∧ ((∀ d ∈ Constants.IGNORE_DOMAINS, ciContains e.fromAddr d = false) →
          (GmailClient.mightBeLogistics e = true ↔
            ∃ k ∈ Constants.LOGISTICS_KEYWORDS,
              strContainsSub (GmailClient.searchTextOf e) k = true)) := by
  intro e
  constructor
  · rintro ⟨d, hd, hci⟩
    unfold ciContains at hci
    rw [ignore_domains_lower d hd] at hci
    have hcond : Constants.IGNORE_DOMAINS.any
        (fun x => strContainsSub (jsToLower e.fromAddr) x) = true :=
      List.any_eq_true.mpr ⟨d, hd, hci⟩
    simp [GmailClient.mightBeLogistics, hcond]
  · intro hall
    have hcond : Constants.IGNORE_DOMAINS.any
        (fun x => strContainsSub (jsToLower e.fromAddr) x) = false := by
      rw [List.any_eq_false]
      intro d hd
      have := hall d hd
      unfold ciContains at this
      rw [ignore_domains_lower d hd] at this
      simp [this]
    have hm : GmailClient.mightBeLogistics e
        = Constants.LOGISTICS_KEYWORDS.any
            (fun k => strContainsSub (GmailClient.searchTextOf e) (jsToLower k)) := by
      simp [GmailClient.mightBeLogistics, hcond]
    rw [hm, List.any_eq_true]
    constructor
    · rintro ⟨k, hk, hs⟩
      exact ⟨k, hk, by rwa [keywords_lower k hk] at hs⟩
    · rintro ⟨k, hk, hs⟩
      exact ⟨k, hk, by rwa [keywords_lower k hk]⟩

/-- Witness for C8: the spec's ignore-list scenario — a message from
noreply@newsletter.example.com whose text contains the keyword "delivery"
is rejected. -/
theorem keyword_prefilter_correct_witness :
    "noreply@" ∈ Constants.IGNORE_DOMAINS
    ∧ ciContains "noreply@newsletter.example.com" "noreply@" = true
    ∧ "delivery" ∈ Constants.LOGISTICS_KEYWORDS
    ∧ strContainsSub (GmailClient.searchTextOf
        { id := "m-1", subject := "Your delivery",
          fromAddr := "noreply@newsletter.example.com",
          body := "delivery arriving tomorrow", snippet := "" }) "delivery" = true
    ∧ GmailClient.mightBeLogistics
        { id := "m-1", subject := "Your delivery",
          fromAddr := "noreply@newsletter.example.com",
          body := "delivery arriving tomorrow", snippet := "" } = false := by
  refine ⟨by decide, by decide, by decide, by decide, ?_⟩
  exact (keyword_prefilter_correct
    { id := "m-1", subject := "Your delivery",
      fromAddr := "noreply@newsletter.example.com",
      body := "delivery arriving tomorrow", snippet := "" }).1
    ⟨"noreply@", by decide, by decide⟩

/-- C10: for a string, null, undefined or empty-string input,
validateEventType returns a member of the nine-value event-type enum
without throwing, mapping missing or (after case-folding) unrecognized
values to "other"; consequently every record createEvent builds from such
an input has its eventType in the enum. -/
theorem event_type_validated_into_enum :
    (∀ v : JVal,
      (v = JVal.vNull ∨ v = JVal.vUndef ∨ ∃ s, v = JVal.vStr s) →
      (∃ t, EventSchema.validateEventType v = Except.ok t
         ∧ t ∈ Constants.EVENT_TYPES_values)
      ∧ ((v = JVal.vNull ∨ v = JVal.vUndef ∨ v = JVal.vStr ""
           ∨ ∃ s, v = JVal.vStr s ∧ jsToLower s ∉ Constants.EVENT_TYPES_values) →
          EventSchema.validateEventType v = Except.ok "other"))
    ∧ (∀ (email : EventSchema.EmailData) (ai : AIParser.RawResult) (uid : String),
        (ai.eventType = JVal.vNull ∨ ai.eventType = JVal.vUndef
          ∨ ∃ s, ai.eventType = JVal.vStr s) →
        ∃ ev, EventSchema.createEvent email ai uid = Except.ok ev
          ∧ ev.eventType ∈ Constants.EVENT_TYPES_values) := by
  have hmain : ∀ v : JVal,
      (v = JVal.vNull ∨ v = JVal.vUndef ∨ ∃ s, v = JVal.vStr s) →
      ∃ t, EventSchema.validateEventType v = Except.ok t
        ∧ t ∈ Constants.EVENT_TYPES_values := by
    rintro v (rfl | rfl | ⟨s, rfl⟩)
    · exact ⟨"other", rfl, by decide⟩
    · exact ⟨"other", rfl, by decide⟩
    · by_cases hs : s = ""
      · subst hs
        exact ⟨"other", rfl, by decide⟩
      · by_cases hmem : jsToLower s ∈ Constants.EVENT_TYPES_values
        · refine ⟨jsToLower s, ?_, hmem⟩
          simp [EventSchema.validateEventType, truthy, hs, hmem]
        · refine ⟨"other", ?_, by decide⟩
          simp [EventSchema.validateEventType, truthy, hs, hmem]
  refine ⟨fun v hv => ⟨hmain v hv, ?_⟩, ?_⟩
  · rintro (rfl | rfl | rfl | ⟨s, rfl, hmem⟩)
    · rfl
    · rfl
    · rfl
    · by_cases hs : s = ""
      · subst hs; rfl
      · simp [EventSchema.validateEventType, truthy, hs, hmem]
  · intro email ai uid hdom
    obtain ⟨t, ht, htm⟩ := hmain ai.eventType hdom
    simp only [EventSchema.createEvent, ht]
    exact ⟨_, rfl, htm⟩

/-- Witness for C10: "DELIVERY" case-folds into the enum; a whole record
built from it carries an enum eventType. -/
theorem event_type_validated_into_enum_witness :
    (∃ t, EventSchema.validateEventType (JVal.vStr "DELIVERY") = Except.ok t
       ∧ t ∈ Constants.EVENT_TYPES_values)
    ∧ ∃ ev, EventSchema.createEvent
        { id := "m-1", subject := "Package", fromAddr := "a@b.c",
          date := "2024-12-11" }
        { isLogisticsEvent := JVal.vBool true
          title := JVal.vStr "Package delivery"
          description := JVal.vStr ""
          startDateTime := JVal.vStr "2024-12-12T14:00:00.000Z"
          endDateTime := JVal.vNull
          location := JVal.vStr ""
          eventType := JVal.vStr "DELIVERY"
          confidence := JVal.vNum 1 } "user-1" = Except.ok ev
      ∧ ev.eventType ∈ Constants.EVENT_TYPES_values := by
  constructor
  · exact (event_type_validated_into_enum.1 (JVal.vStr "DELIVERY")
      (Or.inr (Or.inr ⟨"DELIVERY", rfl⟩))).1
  · exact event_type_validated_into_enum.2
      { id := "m-1", subject := "Package", fromAddr := "a@b.c",
        date := "2024-12-11" }
      { isLogisticsEvent := JVal.vBool true
        title := JVal.vStr "Package delivery"
        description := JVal.vStr ""
        startDateTime := JVal.vStr "2024-12-12T14:00:00.000Z"
        endDateTime := JVal.vNull
        location := JVal.vStr ""
        eventType := JVal.vStr "DELIVERY"
        confidence := JVal.vNum 1 } "user-1"
      (Or.inr (Or.inr ⟨"DELIVERY", rfl⟩))

/-- C1 (code-bug demonstration): the user-scoped operations
(getEventByEmailId, getEvents, deleteEvent) correctly hide another
identity's record from caller "user-bob", but syncEvent's existence lookup
and update key only on emailId — "user-bob"'s upsert overwrites
"user-alice"'s document (its userId included) — and updateEventSyncStatus
likewise modifies "user-alice"'s record with no user filter in its query. -/
theorem mongo_cross_user_write_demo :
    MongoSync.syncEvent ⟨"user-bob", "m1"⟩
        [⟨1, "user-alice", "m1", none, none⟩] 7
      = ([⟨1, "user-bob", "m1", none, none⟩], 1)
    ∧ MongoSync.updateEventSyncStatus "m1" "cal-9" "synced"
        [⟨1, "user-alice", "m1", none, none⟩]
      = [⟨1, "user-alice", "m1", some "cal-9", some "synced"⟩]
    ∧ MongoSync.getEventByEmailId "user-bob" "m1"
        [⟨1, "user-alice", "m1", none, none⟩] = none
    ∧ MongoSync.getEvents "user-bob" (fun _ => true)
        [⟨1, "user-alice", "m1", none, none⟩] = []
    ∧ MongoSync.deleteEvent "user-bob" "m1"
        [⟨1, "user-alice", "m1", none, none⟩]
      = [⟨1, "user-alice", "m1", none, none⟩] := by
  decide

/-- C2 (counterexample): an error the shared classifier marks
non-retryable (HTTP 404) makes createCalendarEventWithRetry stop after
attempt 1, but syncEventWithRetry still runs all MAX_RETRIES = 3 attempts
— it does not fail immediately after the first attempt as claimed. -/
theorem remote_mirror_retries_nonretryable :
    CalendarClient.isNonRetryableCalendarError
      "Calendar API error: 404 - Not Found" = true
    ∧ (MongoSync.syncEventWithRetry
        (fun _ => Except.error "Calendar API error: 404 - Not Found")).2.1
      = Constants.MAX_RETRIES
    ∧ (CalendarClient.createCalendarEventWithRetry
        (fun _ => Except.error "Calendar API error: 404 - Not Found")).2.1 = 1
    ∧ Constants.MAX_RETRIES ≠ 1 := by
  decide

/-- C2 (amended): only the Calendar Upsert Client classifies errors —
createCalendarEventWithRetry aborts on the first non-retryable (auth/4xx)
error with no retry, while syncEventWithRetry retries every error with
the same backoff delays; both loops are bounded by MAX_RETRIES attempts,
and the two backoff routines compute the same function. -/
theorem retry_policy_amended :
    (∀ (env : Nat → Except String String) (e : String),
      env 1 = Except.error e →
      CalendarClient.isNonRetryableCalendarError e = true →
      CalendarClient.createCalendarEventWithRetry env = (Except.error e, 1, []))
    ∧ (∀ (env : Nat → Except String String) (e : String),
      (∀ a, env a = Except.error e) →
      MongoSync.syncEventWithRetry env
        = (Except.error e, Constants.MAX_RETRIES,
           [MongoSync.calculateBackoff 1, MongoSync.calculateBackoff 2]))
    ∧ (∀ env : Nat → Except String String,
       (CalendarClient.createCalendarEventWithRetry env).2.1
           ≤ Constants.MAX_RETRIES
       ∧ (MongoSync.syncEventWithRetry env).2.1 ≤ Constants.MAX_RETRIES)
    ∧ MongoSync.calculateBackoff = CalendarClient.calculateBackoff := by
  refine ⟨?_, ?_, ?_, rfl⟩
  · intro env e h1 hne
    show CalendarClient.calRetryAux env 1 (Constants.MAX_RETRIES - 1) = _
    simp [Constants.MAX_RETRIES, CalendarClient.calRetryAux, h1, hne]
  · intro env e hall
    show MongoSync.syncRetryAux env 1 (Constants.MAX_RETRIES - 1) = _
    simp [Constants.MAX_RETRIES, MongoSync.syncRetryAux, hall 1, hall 2, hall 3]
  · intro env
    constructor
    · have := calRetryAux_attempt_le env (Constants.MAX_RETRIES - 1) 1
      simpa [CalendarClient.createCalendarEventWithRetry,
        Constants.MAX_RETRIES] using this
    · have := syncRetryAux_attempt_le env (Constants.MAX_RETRIES - 1) 1
      simpa [MongoSync.syncEventWithRetry, Constants.MAX_RETRIES] using this

/-- Witness for the amended C2: a 401-style auth error aborts the calendar
retry loop at attempt 1; a constant mongo error is retried through all
three attempts with the two backoff delays. -/
theorem retry_policy_amended_witness :
    CalendarClient.createCalendarEventWithRetry
        (fun _ => Except.error "Calendar API authentication failed")
      = (Except.error "Calendar API authentication failed", 1, [])
    ∧ MongoSync.syncEventWithRetry (fun _ => Except.error "boom")
      = (Except.error "boom", Constants.MAX_RETRIES,
         [MongoSync.calculateBackoff 1, MongoSync.calculateBackoff 2]) := by
  constructor
  · exact retry_policy_amended.1
      (fun _ => Except.error "Calendar API authentication failed")
      "Calendar API authentication failed" rfl (by decide)
  · exact retry_policy_amended.2.1 (fun _ => Except.error "boom") "boom"
      (fun a => rfl)

end Extension
